import Mathlib

/-!
Shallow embedding of pkg/sql/colfetcher/colbatch_scan.go: the ColBatchScan
operator (construction, Init, Next, DrainMeta, Release) and its helpers
(populateTableArgs, cFetcherTableArgs.Release).  Go slices are modelled as a
backing list plus a visible length so that capacity-retention and deep-reset
behaviour of the pooled objects is expressible; machine integers are modelled
as Nat (no arithmetic here can overflow in practice).  External collaborators
that are not part of the analyzed source (the cFetcher row-fetch engine,
execinfra span-copy helpers, the type resolver, the metadata services) are
modelled from the specification's description of their contracts.
-/

namespace Colfetcher

/-- A Go slice: a backing array (list) together with the visible length.
Elements of `backing` beyond `len` model the retained capacity. -/
structure GoSlice (α : Type) where
  backing : List α
  len : Nat
deriving Repr, DecidableEq

/-- The visible elements of a slice. -/
def GoSlice.view {α : Type} (s : GoSlice α) : List α :=
  s.backing.take s.len

/-- A freshly allocated slice holding exactly `l`. -/
def GoSlice.ofList {α : Type} (l : List α) : GoSlice α :=
  { backing := l, len := l.length }

/-- Truncating a slice to length zero and then appending `l`, as Go's append
does: the backing array is reused when capacity suffices, otherwise a fresh
one is allocated. -/
def GoSlice.overwrite {α : Type} (s : GoSlice α) (l : List α) : GoSlice α :=
  if l.length ≤ s.backing.length then
    { backing := l ++ s.backing.drop l.length, len := l.length }
  else
    { backing := l, len := l.length }

/-- A key span of the scan: roachpb.Span with byte-string endpoints. -/
structure Span where
  key : List Nat
  endKey : List Nat
deriving Repr, DecidableEq

/-- The zero value of roachpb.Span. -/
def Span.empty : Span :=
  { key := [], endKey := [] }

/-- Memory footprint of a span (roachpb.Span.MemUsage, abstracted to the
number of key bytes held). -/
def Span.memUsage (sp : Span) : Nat :=
  sp.key.length + sp.endKey.length

/-- Memory footprint of a list of spans (roachpb.Spans.MemUsage). -/
def spansMemUsage (l : List Span) : Nat :=
  (l.map Span.memUsage).sum

/-- Timestamps (hlc.Timestamp) abstracted to naturals; `<` models
hlc.Timestamp.Less. -/
abbrev Timestamp := Nat

/-- Column types (types.T) abstracted to an identifier. -/
abbrev TypeT := Nat

/-- A catalog column: identity plus its type (catalog.Column restricted to
GetID and GetType, which are all this file uses). -/
structure Column where
  id : Nat
  typ : TypeT
deriving Repr, DecidableEq

/-- A catalog index, restricted to the Primary predicate. -/
structure Index where
  primary : Bool
deriving Repr, DecidableEq

/-- A table descriptor, restricted to the accessors colbatch_scan.go uses:
the public / readable / system column lists and the modification time. -/
structure TableDescriptor where
  publicColumns : List Column
  readableColumns : List Column
  systemColumns : List Column
  modificationTime : Timestamp
deriving Repr, DecidableEq

/-- execinfrapb.ScanVisibility. -/
inductive ScanVisibility where
  | public
  | publicAndNotPublic
deriving Repr, DecidableEq

/-- Errors produced by the embedded code.  errors.Errorf /
errors.AssertionFailedf payloads are abstracted to dedicated constructors;
errors bubbling out of the row-fetch engine carry an opaque code. -/
inductive CrdbError where
  | uninitializedNodeID
  | isCheckAssertion
  | hydrationFailed
  | fetcherInternal (code : Nat)
  | selectionVectorAssertion
deriving Repr, DecidableEq

/-- Whether an Except value is an error. -/
def isErr {ε α : Type} : Except ε α → Bool
  | Except.error _ => true
  | Except.ok _ => false

/-- The ok payload of an Except value, with a default for the error case. -/
def exceptGetOk {ε α : Type} (dflt : α) : Except ε α → α
  | Except.error _ => dflt
  | Except.ok a => a

/-- A coldata.Batch, restricted to what Next observes: its length and its
(possibly nil) selection vector. -/
structure Batch where
  length : Nat
  selection : Option (List Nat)
deriving Repr, DecidableEq

/-- The zero-length batch signalling exhaustion. -/
def Batch.zero : Batch :=
  { length := 0, selection := none }

/-- Modelled from the spec: the cFetcher row-fetch engine is not under src;
per the Row-Fetch Engine contract it is started with limits and locking
policy, pulled for batches, and queried for bytes read.  It is modelled as a
scripted stream of batch outcomes plus a record of how it was started. -/
structure CFetcher where
  pending : List (Except Nat Batch)
  startCount : Nat
  limitBatchesArg : Option Bool
  batchBytesLimitArg : Option Nat
  limitHintArg : Option Nat
  bytesRead : Nat
deriving Repr

/-- The zero value of the engine model, as held by a pooled / released
operator. -/
def CFetcher.empty : CFetcher :=
  { pending := [], startCount := 0, limitBatchesArg := none,
    batchBytesLimitArg := none, limitHintArg := none, bytesRead := 0 }

/-- Modelled from the spec: cFetcher.StartScan is not under src; it starts
the engine against the given limits.  The model records the arguments and
counts the starts. -/
def CFetcher.StartScan (rf : CFetcher) (limitBatches : Bool)
    (batchBytesLimit : Nat) (limitHint : Nat) : CFetcher :=
  { rf with
    startCount := rf.startCount + 1,
    limitBatchesArg := some limitBatches,
    batchBytesLimitArg := some batchBytesLimit,
    limitHintArg := some limitHint }

/-- Modelled from the spec: cFetcher.NextBatch is not under src; it yields
the next batch outcome, and a zero-length batch forever once the scripted
scan is exhausted. -/
def CFetcher.NextBatch (rf : CFetcher) : Except Nat Batch × CFetcher :=
  match rf.pending with
  | [] => (Except.ok Batch.zero, rf)
  | r :: rest => (r, { rf with pending := rest })

/-- execinfra.FlowCtx restricted to the fields colbatch_scan.go reads: the
Local flag and the optional node identity (NodeID.OptionalNodeID; `some 0`
is the present-but-zero case). -/
structure FlowCtx where
  Local : Bool
  nodeID : Option Nat
deriving Repr, DecidableEq

/-- The zero value of FlowCtx, as held by a released operator. -/
def FlowCtx.empty : FlowCtx :=
  { Local := false, nodeID := none }

/-- tree.AsOfSystemTime restricted to the fields used for the bounded
staleness header. -/
structure AsOfSystemTime where
  timestamp : Timestamp
  boundedStaleness : Bool
  nearestOnly : Bool
  maxTimestampBound : Timestamp
deriving Repr, DecidableEq

/-- tree.EvalContext restricted to AsOfSystemTime. -/
structure EvalCtx where
  asOfSystemTime : Option AsOfSystemTime
deriving Repr, DecidableEq

/-- roachpb.BoundedStalenessHeader. -/
structure BoundedStalenessHeader where
  minTimestampBound : Timestamp
  minTimestampBoundStrict : Bool
  maxTimestampBound : Timestamp
deriving Repr, DecidableEq

/-- execinfrapb.TableReaderSpec restricted to the fields colbatch_scan.go
reads.  The inverted column is resolved outside (tabledesc.FindInvertedColumn
is not under src) and passed as an argument to construction. -/
structure TableReaderSpec where
  limitHint : Nat
  batchBytesLimit : Nat
  parallelize : Bool
  isCheck : Bool
  spans : List Span
  visibility : ScanVisibility
  hasSystemColumns : Bool
  neededColumns : List Nat
  reverse : Bool
deriving Repr, DecidableEq

/-- execinfra.SpansWithCopy: the operator's spans plus the retained copy used
for misplanned-range reporting. -/
structure SpansWithCopy where
  spans : GoSlice Span
  spansCopy : GoSlice Span
deriving Repr, DecidableEq

/-- Modelled from the spec: execinfra.SpansWithCopy.MakeSpansCopy is not
under src; it retains an immutable deep duplicate of the current spans. -/
def SpansWithCopy.MakeSpansCopy (x : SpansWithCopy) : SpansWithCopy :=
  { x with spansCopy := GoSlice.ofList x.spans.view }

/-- Modelled from the spec: execinfra.SpansWithCopy.Reset is not under src;
per the source comment at the call site it deeply resets the spans so the
span keys are not retained: both slices are truncated to length zero and
their backing elements cleared. -/
def SpansWithCopy.Reset (x : SpansWithCopy) : SpansWithCopy :=
  { spans := { backing := x.spans.backing.map (fun _ => Span.empty), len := 0 },
    spansCopy := { backing := x.spansCopy.backing.map (fun _ => Span.empty), len := 0 } }

/-- cFetcherTableArgs: the resolved column projection handed to the fetch
engine.  Column references are nilable in Go, hence `Option Column` elements;
the descriptor and index references are modelled as options so that the
released (zero) state is expressible. -/
structure CFetcherTableArgs where
  desc : Option TableDescriptor
  index : Option Index
  colIdxMap : List (Nat × Nat)
  isSecondaryIndex : Bool
  cols : GoSlice (Option Column)
  valNeededForCol : List Nat
  typs : GoSlice TypeT
deriving Repr, DecidableEq

/-- The zero value of cFetcherTableArgs, as produced by its pool's New. -/
def CFetcherTableArgs.empty : CFetcherTableArgs :=
  { desc := none, index := none, colIdxMap := [], isSecondaryIndex := false,
    cols := { backing := [], len := 0 }, valNeededForCol := [],
    typs := { backing := [], len := 0 } }

/-- catalog.ColumnIDToOrdinalMap: each column's ID mapped to its ordinal. -/
def columnIDToOrdinalMap (cols : List Column) : List (Nat × Nat) :=
  cols.enum.map (fun p => (p.2.id, p.1))

/-- The in-place substitution loop of populateTableArgs: the first column
whose ID matches the inverted column is replaced by it, and the loop breaks. -/
def replaceFirstById : List Column → Column → List Column
  | [], _ => []
  | c :: cs, inv =>
    if c.id = inv.id then inv :: cs else c :: replaceFirstById cs inv

/-- populateTableArgs fills all fields of the cFetcherTableArgs except for
ValNeededForCol.  The type resolver's HydrateTypeSlice is not under src and
is modelled from the spec as validation of each type by the supplied
`hydrateOk` predicate (a failure is a reportable error, not a panic). -/
def populateTableArgs (hydrateOk : TypeT → Bool) (table : TableDescriptor)
    (index : Index) (invertedCol : Option Column)
    (visibility : ScanVisibility) (hasSystemColumns : Bool)
    (pooledArgs : CFetcherTableArgs) : Except CrdbError CFetcherTableArgs :=
  let base :=
    if visibility = ScanVisibility.publicAndNotPublic then
      table.readableColumns
    else
      table.publicColumns
  let withInverted :=
    match invertedCol with
    | none => base
    | some inv => replaceFirstById base inv
  let colsList :=
    if hasSystemColumns then withInverted ++ table.systemColumns else withInverted
  let args : CFetcherTableArgs :=
    { desc := some table,
      index := some index,
      colIdxMap := columnIDToOrdinalMap colsList,
      isSecondaryIndex := !index.primary,
      cols := pooledArgs.cols.overwrite (colsList.map some),
      valNeededForCol := [],
      typs := pooledArgs.typs.overwrite (colsList.map Column.typ) }
  if args.typs.view.all hydrateOk then Except.ok args
  else Except.error CrdbError.hydrationFailed

/-- cFetcherTableArgs.Release: every visible element of the column list is
nilled out, the column and type slices are truncated to length zero keeping
their backing, and all other fields are zeroed. -/
def CFetcherTableArgs.Release (a : CFetcherTableArgs) : CFetcherTableArgs :=
  let oldCols : GoSlice (Option Column) :=
    { backing :=
        (a.cols.backing.take a.cols.len).map (fun _ => (none : Option Column))
          ++ a.cols.backing.drop a.cols.len,
      len := a.cols.len }
  { desc := none, index := none, colIdxMap := [], isSecondaryIndex := false,
    cols := { backing := oldCols.backing, len := 0 },
    valNeededForCol := [],
    typs := { backing := a.typs.backing, len := 0 } }

/-- The ColBatchScan operator state.  initDone models the colexecop.InitHelper
guard (modelled from the spec: InitHelper is not under src; per the spec it is
an idempotent once-guard); tracingSpan models whether the child tracing span
was opened; rowsRead is the mutex-guarded counter (the mutex itself is a
concurrency artifact with no shallow-embedding content). -/
structure ColBatchScan where
  initDone : Bool
  spansWithCopy : SpansWithCopy
  flowCtx : FlowCtx
  bsHeader : Option BoundedStalenessHeader
  rf : CFetcher
  limitHint : Nat
  batchBytesLimit : Nat
  parallelize : Bool
  tracingSpan : Bool
  rowsRead : Nat
  resultTypes : List TypeT
deriving Repr

/-- The zero value of ColBatchScan, as produced by its pool's New. -/
def ColBatchScan.emptyScan : ColBatchScan :=
  { initDone := false,
    spansWithCopy := { spans := { backing := [], len := 0 },
                       spansCopy := { backing := [], len := 0 } },
    flowCtx := FlowCtx.empty, bsHeader := none, rf := CFetcher.empty,
    limitHint := 0, batchBytesLimit := 0, parallelize := false,
    tracingSpan := false, rowsRead := 0, resultTypes := [] }

/-- rowinfra.DefaultBatchBytesLimit. -/
def DefaultBatchBytesLimit : Nat := 10485760

/-- The construction-time node identity check: error iff the node ID is
present but zero. -/
def nodeIDPresentZero : Option Nat → Bool
  | some 0 => true
  | some (_ + 1) => false
  | none => false

/-- NewColBatchScan creates a new ColBatchScan operator.  `allocUsage` is the
batch memory allocator's current usage, returned updated (AdjustMemoryUsage).
The cFetcher configuration step (fetcher.Init) is not under src and is
modelled from the spec, where configuring the engine with codec, allocator,
memory account and projection is not fallible. -/
def NewColBatchScan (hydrateOk : TypeT → Bool) (allocUsage : Nat)
    (flowCtx : FlowCtx) (evalCtx : EvalCtx) (spec : TableReaderSpec)
    (table : TableDescriptor) (index : Index) (invertedCol : Option Column)
    (pooledArgs : CFetcherTableArgs) (pooled : ColBatchScan) :
    Except CrdbError (ColBatchScan × Nat) :=
  if nodeIDPresentZero flowCtx.nodeID then
    Except.error CrdbError.uninitializedNodeID
  else if spec.isCheck then
    -- cFetchers don't support these checks.
    Except.error CrdbError.isCheckAssertion
  else
    -- execinfra.LimitHint is modelled as the identity on the spec's hint
    -- (post-processing specs are out of scope of the analyzed source).
    let limitHint := spec.limitHint
    match populateTableArgs hydrateOk table index invertedCol
        spec.visibility spec.hasSystemColumns pooledArgs with
    | Except.error e => Except.error e
    | Except.ok tableArgs =>
      let tableArgs :=
        { tableArgs with
          valNeededForCol := tableArgs.valNeededForCol ++ spec.neededColumns }
      let fetcher := CFetcher.empty
      let bsHeader : Option BoundedStalenessHeader :=
        match evalCtx.asOfSystemTime with
        | some aost =>
          if aost.boundedStaleness then
            -- If the descriptor's modification time is after the bounded
            -- staleness min bound, the min bound is raised to it.
            let ts :=
              if aost.timestamp < table.modificationTime then
                table.modificationTime
              else
                aost.timestamp
            some { minTimestampBound := ts,
                   minTimestampBoundStrict := aost.nearestOnly,
                   maxTimestampBound := aost.maxTimestampBound }
          else none
        | none => none
      let spans := pooled.spansWithCopy.spans.overwrite spec.spans
      let swc0 : SpansWithCopy := { pooled.spansWithCopy with spans := spans }
      let allocUsageOut :=
        if !flowCtx.Local then allocUsage + spansMemUsage spans.view
        else allocUsage
      let swc :=
        if !flowCtx.Local then swc0.MakeSpansCopy else swc0
      let parallelize :=
        if spec.limitHint > 0 ∨ spec.batchBytesLimit > 0 then false
        else spec.parallelize
      let batchBytesLimit :=
        if !parallelize then
          if spec.batchBytesLimit = 0 then DefaultBatchBytesLimit
          else spec.batchBytesLimit
        else 0
      Except.ok
        ({ initDone := false,
           spansWithCopy := swc,
           flowCtx := flowCtx,
           bsHeader := bsHeader,
           rf := fetcher,
           limitHint := limitHint,
           batchBytesLimit := batchBytesLimit,
           parallelize := parallelize,
           tracingSpan := false,
           rowsRead := 0,
           resultTypes := tableArgs.typs.view }, allocUsageOut)

/-- Init initializes a ColBatchScan: guarded by the InitHelper once-flag, it
opens the child tracing span and starts the row-fetch engine with
limitBatches the negation of the parallelize flag. -/
def ColBatchScan.Init (s : ColBatchScan) : ColBatchScan :=
  if s.initDone then s
  else
    { s with
      initDone := true,
      tracingSpan := true,
      rf := s.rf.StartScan (!s.parallelize) s.batchBytesLimit s.limitHint }

/-- Next pulls one batch from the engine; an engine error or a batch carrying
a selection vector is a fatal internal error (colexecerror.InternalError),
otherwise the batch is returned and the rows-read counter advanced. -/
def ColBatchScan.Next (s : ColBatchScan) :
    Except CrdbError (Batch × ColBatchScan) :=
  match s.rf.NextBatch with
  | (Except.error e, _) => Except.error (CrdbError.fetcherInternal e)
  | (Except.ok bat, rf) =>
    if bat.selection ≠ none then
      Except.error CrdbError.selectionVectorAssertion
    else
      Except.ok (bat, { s with rf := rf, rowsRead := s.rowsRead + bat.length })

/-- N successive calls to Next, collecting the returned batches. -/
def nextN : Nat → ColBatchScan → Except CrdbError (List Batch × ColBatchScan)
  | 0, s => Except.ok ([], s)
  | n + 1, s =>
    match s.Next with
    | Except.error e => Except.error e
    | Except.ok (b, s1) =>
      match nextN n s1 with
      | Except.error e => Except.error e
      | Except.ok (bs, s2) => Except.ok (b :: bs, s2)

/-- GetRowsRead reads the mutex-guarded counter. -/
def ColBatchScan.GetRowsRead (s : ColBatchScan) : Nat :=
  s.rowsRead

/-- GetBytesRead queries the engine under the mutex. -/
def ColBatchScan.GetBytesRead (s : ColBatchScan) : Nat :=
  s.rf.bytesRead

/-- execinfrapb.ProducerMetadata restricted to the four trailing metadata
payloads DrainMeta can emit. -/
inductive ProducerMetadata where
  | ranges (info : Nat)
  | leafTxnFinalState (state : Nat)
  | metrics (bytesRead rowsRead : Nat)
  | traceData (trace : Nat)
deriving Repr, DecidableEq

/-- Whether a metadata item is misplanned-range metadata. -/
def ProducerMetadata.isRanges : ProducerMetadata → Bool
  | ProducerMetadata.ranges _ => true
  | _ => false

/-- Modelled from the spec: the services DrainMeta consults are not under src
(execinfra.MisplannedRanges over the range cache, GetLeafTxnFinalState on the
transaction, GetTraceData on the context); each yields its payload or
nothing. -/
structure DrainEnv where
  misplannedRanges : List Span → Nat → Option Nat
  leafTxnFinalState : Option Nat
  traceData : Option Nat

/-- DrainMeta assembles the trailing metadata: misplanned ranges (non-local
execution with a present node ID only), leaf transaction final state,
metrics (always), trace data. -/
def ColBatchScan.DrainMeta (env : DrainEnv) (s : ColBatchScan) :
    List ProducerMetadata :=
  let trailingMeta : List ProducerMetadata := []
  let trailingMeta :=
    if !s.flowCtx.Local then
      match s.flowCtx.nodeID with
      | some nodeID =>
        match env.misplannedRanges s.spansWithCopy.spansCopy.view nodeID with
        | some ranges => trailingMeta ++ [ProducerMetadata.ranges ranges]
        | none => trailingMeta
      | none => trailingMeta
    else trailingMeta
  let trailingMeta :=
    match env.leafTxnFinalState with
    | some tfs => trailingMeta ++ [ProducerMetadata.leafTxnFinalState tfs]
    | none => trailingMeta
  let trailingMeta :=
    trailingMeta ++ [ProducerMetadata.metrics s.GetBytesRead s.GetRowsRead]
  match env.traceData with
  | some trace => trailingMeta ++ [ProducerMetadata.traceData trace]
  | none => trailingMeta

/-- The misplanned-range step of DrainMeta as an optional item, following the
spec's description (computed only for non-local execution with a present node
identity, from the retained span copy). -/
def rangesMetaOpt (env : DrainEnv) (s : ColBatchScan) : Option ProducerMetadata :=
  if s.flowCtx.Local then none
  else
    match s.flowCtx.nodeID with
    | none => none
    | some nodeID =>
      (env.misplannedRanges s.spansWithCopy.spansCopy.view nodeID).map
        ProducerMetadata.ranges

/-- The spec's description of DrainMeta: the four steps in fixed order, each
an optional item, with empty steps omitted (metrics always yields data). -/
def drainMetaSpec (env : DrainEnv) (s : ColBatchScan) : List ProducerMetadata :=
  [rangesMetaOpt env s,
   env.leafTxnFinalState.map ProducerMetadata.leafTxnFinalState,
   some (ProducerMetadata.metrics s.GetBytesRead s.GetRowsRead),
   env.traceData.map ProducerMetadata.traceData].reduceOption

/-- ColBatchScan.Release: the engine handle is released, the spans are deeply
reset, and every other field is zeroed before the operator returns to its
pool. -/
def ColBatchScan.Release (s : ColBatchScan) : ColBatchScan :=
  { initDone := false,
    spansWithCopy := s.spansWithCopy.Reset,
    flowCtx := FlowCtx.empty, bsHeader := none, rf := CFetcher.empty,
    limitHint := 0, batchBytesLimit := 0, parallelize := false,
    tracingSpan := false, rowsRead := 0, resultTypes := [] }

/-- The spec's description of the inverted-column substitution: the matching
column is replaced in place, position preserved (set at the first matching
index; no match leaves the list unchanged, since set out of range is the
identity). -/
def invertedSubstitution (base : List Column) (inv : Column) : List Column :=
  base.set (base.findIdx (fun c => c.id = inv.id)) inv

/-- The column list populateTableArgs projects, as a pure list function:
readable columns for public-and-non-public visibility, else public columns;
the inverted column substituted in place; system columns appended. -/
def projectedColumns (table : TableDescriptor) (invertedCol : Option Column)
    (visibility : ScanVisibility) (hasSystemColumns : Bool) : List Column :=
  let base :=
    if visibility = ScanVisibility.publicAndNotPublic then
      table.readableColumns
    else
      table.publicColumns
  let withInverted :=
    match invertedCol with
    | none => base
    | some inv => replaceFirstById base inv
  if hasSystemColumns then withInverted ++ table.systemColumns else withInverted

/-- The spec's wording of the projected column list: base columns by
visibility, the inverted substitution performed in place at the first
matching position (via invertedSubstitution), system columns as a trailing
block. -/
def projectedColumnsSpec (table : TableDescriptor) (invertedCol : Option Column)
    (visibility : ScanVisibility) (hasSystemColumns : Bool) : List Column :=
  let base :=
    if visibility = ScanVisibility.publicAndNotPublic then
      table.readableColumns
    else
      table.publicColumns
  let withInverted :=
    match invertedCol with
    | none => base
    | some inv => invertedSubstitution base inv
  if hasSystemColumns then withInverted ++ table.systemColumns else withInverted

/-- The argument record populateTableArgs builds on success, written with the
projection folded through projectedColumns (definitionally equal to the
record built inside populateTableArgs). -/
def populateResult (table : TableDescriptor) (index : Index)
    (invertedCol : Option Column) (visibility : ScanVisibility)
    (hasSystemColumns : Bool) (pooledArgs : CFetcherTableArgs) :
    CFetcherTableArgs :=
  { desc := some table,
    index := some index,
    colIdxMap := columnIDToOrdinalMap
      (projectedColumns table invertedCol visibility hasSystemColumns),
    isSecondaryIndex := !index.primary,
    cols := pooledArgs.cols.overwrite
      ((projectedColumns table invertedCol visibility hasSystemColumns).map some),
    valNeededForCol := [],
    typs := pooledArgs.typs.overwrite
      ((projectedColumns table invertedCol visibility hasSystemColumns).map
        Column.typ) }

/- Concrete sample data used by the witness theorems. -/

def col1 : Column := { id := 1, typ := 10 }

def col2 : Column := { id := 2, typ := 20 }

def colInv : Column := { id := 2, typ := 99 }

def sysCol : Column := { id := 7, typ := 70 }

def sampleTable : TableDescriptor :=
  { publicColumns := [col1, col2], readableColumns := [col1, col2],
    systemColumns := [sysCol], modificationTime := 50 }

def sampleIndex : Index := { primary := true }

def hydAll : TypeT → Bool := fun _ => true

def sampleFlowCtxDist : FlowCtx := { Local := false, nodeID := some 3 }

def sampleFlowCtxLocal : FlowCtx := { Local := true, nodeID := some 3 }

def sampleAost : AsOfSystemTime :=
  { timestamp := 40, boundedStaleness := true, nearestOnly := false,
    maxTimestampBound := 100 }

def sampleEvalCtx : EvalCtx := { asOfSystemTime := some sampleAost }

def sampleSpan : Span := { key := [1, 2], endKey := [3] }

def sampleSpecLimited : TableReaderSpec :=
  { limitHint := 5, batchBytesLimit := 0, parallelize := true, isCheck := false,
    spans := [sampleSpan], visibility := ScanVisibility.public,
    hasSystemColumns := false, neededColumns := [0], reverse := false }

def specIsCheck : TableReaderSpec := { sampleSpecLimited with isCheck := true }

def c1Result : ColBatchScan × Nat :=
  exceptGetOk (ColBatchScan.emptyScan, 0)
    (NewColBatchScan hydAll 0 sampleFlowCtxDist sampleEvalCtx sampleSpecLimited
      sampleTable sampleIndex none CFetcherTableArgs.empty ColBatchScan.emptyScan)

def batchSel : Batch := { length := 2, selection := some [0] }

def batchClean : Batch := { length := 3, selection := none }

def scanWithPending (l : List (Except Nat Batch)) : ColBatchScan :=
  { ColBatchScan.emptyScan with rf := { CFetcher.empty with pending := l } }

def c3Scan : ColBatchScan :=
  scanWithPending [Except.ok batchClean, Except.ok batchClean]

def c3Result : List Batch × ColBatchScan :=
  exceptGetOk ([], ColBatchScan.emptyScan) (nextN 2 c3Scan)

def sampleEnv : DrainEnv :=
  { misplannedRanges := fun sps nodeID =>
      if 0 < sps.length ∧ 0 < nodeID then some 11 else none,
    leafTxnFinalState := some 5,
    traceData := none }

def c4Scan : ColBatchScan :=
  { ColBatchScan.emptyScan with
    flowCtx := sampleFlowCtxDist,
    spansWithCopy := { spans := GoSlice.ofList [sampleSpan],
                       spansCopy := GoSlice.ofList [sampleSpan] },
    rowsRead := 7 }

def c4LocalScan : ColBatchScan := { c4Scan with flowCtx := sampleFlowCtxLocal }

def c6Args : CFetcherTableArgs :=
  exceptGetOk CFetcherTableArgs.empty
    (populateTableArgs hydAll sampleTable sampleIndex (some colInv)
      ScanVisibility.public true CFetcherTableArgs.empty)

def c7Args : CFetcherTableArgs :=
  { CFetcherTableArgs.empty with
    desc := some sampleTable, index := some sampleIndex,
    colIdxMap := [(1, 0)], isSecondaryIndex := true,
    cols := { backing := [some col1, some col2], len := 2 },
    valNeededForCol := [0],
    typs := { backing := [10, 20], len := 2 } }

def c7Scan : ColBatchScan :=
  { ColBatchScan.emptyScan with
    spansWithCopy := { spans := GoSlice.ofList [sampleSpan],
                       spansCopy := GoSlice.ofList [sampleSpan] },
    rowsRead := 4, parallelize := true, batchBytesLimit := 3 }

/-! Helper lemmas shared by the claim theorems. -/

theorem GoSlice.view_ofList {α : Type} (l : List α) :
    (GoSlice.ofList l).view = l := by
  simp [GoSlice.ofList, GoSlice.view]

theorem GoSlice.view_overwrite {α : Type} (s : GoSlice α) (l : List α) :
    (s.overwrite l).view = l := by
  unfold GoSlice.overwrite GoSlice.view
  split
  · simp [List.take_left]
  · simp

theorem replaceFirstById_eq_invertedSubstitution (base : List Column)
    (inv : Column) :
    replaceFirstById base inv = invertedSubstitution base inv := by
  unfold invertedSubstitution
  induction base with
  | nil => rfl
  | cons c cs ih =>
    by_cases hc : c.id = inv.id
    · simp [replaceFirstById, hc, List.findIdx_cons]
    · simp only [replaceFirstById, hc, if_false, List.findIdx_cons]
      simp only [decide_False, cond_false, List.set_cons_succ]
      rw [ih]

theorem isErr_okIf {ε α : Type} (b : Bool) (a : α) (e : ε) :
    isErr (if b then Except.ok a else Except.error e) = true ↔ b = false := by
  cases b <;> simp [isErr]

theorem nodeIDPresentZero_iff (o : Option Nat) :
    nodeIDPresentZero o = true ↔ o = some 0 := by
  cases o with
  | none => simp [nodeIDPresentZero]
  | some n => cases n <;> simp [nodeIDPresentZero]

theorem next_ok_shape (s : ColBatchScan) (b : Batch) (t : ColBatchScan)
    (h : s.Next = Except.ok (b, t)) :
    t.rowsRead = s.rowsRead + b.length := by
  unfold ColBatchScan.Next at h
  split at h
  · exact Except.noConfusion h
  · split at h
    · exact Except.noConfusion h
    · simp only [Except.ok.injEq, Prod.mk.injEq] at h
      obtain ⟨hb, ht⟩ := h
      subst hb
      subst ht
      rfl

theorem nextN_ok_shape (n : Nat) (s s' : ColBatchScan) (bs : List Batch)
    (h : nextN n s = Except.ok (bs, s')) :
    s'.rowsRead = s.rowsRead + (bs.map Batch.length).sum ∧ bs.length = n := by
  induction n generalizing s bs with
  | zero =>
    unfold nextN at h
    simp only [Except.ok.injEq, Prod.mk.injEq] at h
    obtain ⟨hb, hs⟩ := h
    subst hb
    subst hs
    simp
  | succ n ih =>
    unfold nextN at h
    split at h
    · exact Except.noConfusion h
    · rename_i b s1 heq
      split at h
      · exact Except.noConfusion h
      · rename_i bs1 s2 heq2
        simp only [Except.ok.injEq, Prod.mk.injEq] at h
        obtain ⟨hb, hs⟩ := h
        subst hb
        subst hs
        have h1 := next_ok_shape s b s1 heq
        have h2 := ih s1 bs1 heq2
        constructor
        · rw [h2.1, h1]
          simp [Nat.add_assoc]
        · simpa using h2.2

theorem newColBatchScan_ok_fields (hydrateOk : TypeT → Bool) (allocUsage : Nat)
    (flowCtx : FlowCtx) (evalCtx : EvalCtx) (spec : TableReaderSpec)
    (table : TableDescriptor) (index : Index) (invertedCol : Option Column)
    (pooledArgs : CFetcherTableArgs) (pooled : ColBatchScan)
    (s : ColBatchScan) (memOut : Nat)
    (h : NewColBatchScan hydrateOk allocUsage flowCtx evalCtx spec table index
        invertedCol pooledArgs pooled = Except.ok (s, memOut)) :
    s.rowsRead = 0
    ∧ s.initDone = false
    ∧ s.parallelize = (if spec.limitHint > 0 ∨ spec.batchBytesLimit > 0
        then false else spec.parallelize)
    ∧ s.batchBytesLimit = (if s.parallelize then 0 else
        (if spec.batchBytesLimit = 0 then DefaultBatchBytesLimit
         else spec.batchBytesLimit))
    ∧ s.bsHeader = (match evalCtx.asOfSystemTime with
        | some aost =>
          if aost.boundedStaleness then
            some { minTimestampBound :=
                     if aost.timestamp < table.modificationTime then
                       table.modificationTime
                     else aost.timestamp,
                   minTimestampBoundStrict := aost.nearestOnly,
                   maxTimestampBound := aost.maxTimestampBound }
          else none
        | none => none)
    ∧ s.spansWithCopy.spans.view = spec.spans
    ∧ (flowCtx.Local = false →
        s.spansWithCopy.spansCopy.view = spec.spans
        ∧ memOut = allocUsage + spansMemUsage spec.spans)
    ∧ (flowCtx.Local = true →
        s.spansWithCopy.spansCopy = pooled.spansWithCopy.spansCopy
        ∧ memOut = allocUsage) := by
  unfold NewColBatchScan at h
  split at h
  · exact Except.noConfusion h
  split at h
  · exact Except.noConfusion h
  split at h
  · exact Except.noConfusion h
  rename_i tableArgs heq
  simp only [Except.ok.injEq, Prod.mk.injEq] at h
  obtain ⟨hs, hm⟩ := h
  subst hs
  subst hm
  refine ⟨rfl, rfl, rfl, ?_, rfl, ?_, ?_, ?_⟩
  · by_cases hp : spec.limitHint > 0 ∨ spec.batchBytesLimit > 0
    · simp [hp]
    · simp only [hp, if_false]
      by_cases hq : spec.parallelize <;> simp [hq]
  · by_cases hl : flowCtx.Local <;>
      simp [hl, SpansWithCopy.MakeSpansCopy, GoSlice.view_overwrite]
  · intro hl
    simp [hl, SpansWithCopy.MakeSpansCopy, GoSlice.view_ofList,
      GoSlice.view_overwrite]
  · intro hl
    simp [hl]

/-- C2: a batch returned by the fetch engine with a non-nil selection vector
makes Next fail with an assertion-class internal error and is never returned
to the caller; a batch with a nil selection vector is passed through
unchanged. -/
theorem next_selectionGuard (s : ColBatchScan) (bat : Batch) (rf : CFetcher)
    (h : s.rf.NextBatch = (Except.ok bat, rf)) :
    (bat.selection ≠ none →
      s.Next = Except.error CrdbError.selectionVectorAssertion)
    ∧ (bat.selection = none →
      s.Next = Except.ok (bat,
        { s with rf := rf, rowsRead := s.rowsRead + bat.length })) := by
  constructor
  · intro hsel
    unfold ColBatchScan.Next
    rw [h]
    simp [hsel]
  · intro hsel
    unfold ColBatchScan.Next
    rw [h]
    simp [hsel]

/-- Witness for C2: a batch carrying a selection vector trips the assertion,
a clean batch is returned. -/
theorem next_selectionGuard_witness :
    (scanWithPending [Except.ok batchSel]).Next
      = Except.error CrdbError.selectionVectorAssertion
    ∧ isErr (scanWithPending [Except.ok batchClean]).Next = false := by
  constructor
  · exact (next_selectionGuard (scanWithPending [Except.ok batchSel]) batchSel
      { CFetcher.empty with pending := [] } rfl).1 (by decide)
  · rw [(next_selectionGuard (scanWithPending [Except.ok batchClean]) batchClean
      { CFetcher.empty with pending := [] } rfl).2 rfl]
    rfl

/-- C3: after N successful calls to Next, GetRowsRead equals the sum of the
lengths of the N batches returned; each Next call adds exactly its batch's
length; the counter of a freshly constructed operator is zero. -/
theorem getRowsRead_counts (n : Nat) (s s' : ColBatchScan) (bs : List Batch)
    (h : nextN n s = Except.ok (bs, s')) :
    s'.GetRowsRead = s.GetRowsRead + (bs.map Batch.length).sum
    ∧ bs.length = n
    ∧ (∀ b t, s.Next = Except.ok (b, t) →
        t.GetRowsRead = s.GetRowsRead + b.length)
    ∧ (∀ hydrateOk allocUsage flowCtx evalCtx spec table index invertedCol
        pooledArgs pooled t m,
        NewColBatchScan hydrateOk allocUsage flowCtx evalCtx spec table index
          invertedCol pooledArgs pooled = Except.ok (t, m) →
        t.GetRowsRead = 0) := by
  refine ⟨(nextN_ok_shape n s s' bs h).1, (nextN_ok_shape n s s' bs h).2,
    ?_, ?_⟩
  · intro b t ht
    exact next_ok_shape s b t ht
  · intro hydrateOk allocUsage flowCtx evalCtx spec table index invertedCol
      pooledArgs pooled t m hnew
    exact (newColBatchScan_ok_fields hydrateOk allocUsage flowCtx evalCtx spec
      table index invertedCol pooledArgs pooled t m hnew).1

/-- Witness for C3: two successful Next calls on a concrete scan. -/
theorem getRowsRead_counts_witness :
    nextN 2 c3Scan = Except.ok (c3Result.1, c3Result.2)
    ∧ c3Result.2.GetRowsRead
        = c3Scan.GetRowsRead + (c3Result.1.map Batch.length).sum
    ∧ c3Result.1.length = 2 := by
  refine ⟨rfl, ?_, ?_⟩
  · exact (getRowsRead_counts 2 c3Scan c3Result.2 c3Result.1 rfl).1
  · exact (getRowsRead_counts 2 c3Scan c3Result.2 c3Result.1 rfl).2.1

/-- C9: Init is idempotent — a second call after the first completed is a
no-op; the first call starts the engine exactly once with limitBatches the
negation of the parallelize flag, and opens the tracing span. -/
theorem init_idempotent (s : ColBatchScan) :
    (s.Init).Init = s.Init
    ∧ (s.initDone = false →
        (s.Init).rf.startCount = s.rf.startCount + 1
        ∧ (s.Init).rf.limitBatchesArg = some (!s.parallelize)
        ∧ (s.Init).tracingSpan = true)
    ∧ (s.initDone = true → s.Init = s) := by
  refine ⟨?_, ?_, ?_⟩
  · by_cases hi : s.initDone
    · simp [ColBatchScan.Init, hi]
    · simp [ColBatchScan.Init, hi]
  · intro hi
    simp [ColBatchScan.Init, hi, CFetcher.StartScan]
  · intro hi
    simp [ColBatchScan.Init, hi]

/-- Witness for C9: a fresh operator is started exactly once. -/
theorem init_idempotent_witness :
    ((ColBatchScan.emptyScan.Init).Init = ColBatchScan.emptyScan.Init)
    ∧ (ColBatchScan.emptyScan.Init).rf.startCount
        = ColBatchScan.emptyScan.rf.startCount + 1
    ∧ (ColBatchScan.emptyScan.Init).rf.limitBatchesArg
        = some (!ColBatchScan.emptyScan.parallelize) := by
  have h := init_idempotent ColBatchScan.emptyScan
  exact ⟨h.1, (h.2.1 rfl).1, (h.2.1 rfl).2.1⟩

/-- C1: construction force-disables parallelization whenever a row limit
hint or an explicit byte limit is set in the spec (the limit is never
dropped); whenever parallelization ends up disabled the effective per-batch
byte limit is the spec's explicit limit, or the default when the explicit
limit is zero; whenever parallelization remains enabled it is zero. -/
theorem newColBatchScan_limits (hydrateOk : TypeT → Bool) (allocUsage : Nat)
    (flowCtx : FlowCtx) (evalCtx : EvalCtx) (spec : TableReaderSpec)
    (table : TableDescriptor) (index : Index) (invertedCol : Option Column)
    (pooledArgs : CFetcherTableArgs) (pooled : ColBatchScan)
    (s : ColBatchScan) (memOut : Nat)
    (h : NewColBatchScan hydrateOk allocUsage flowCtx evalCtx spec table index
        invertedCol pooledArgs pooled = Except.ok (s, memOut)) :
    ((0 < spec.limitHint ∨ 0 < spec.batchBytesLimit) → s.parallelize = false)
    ∧ (s.parallelize = false →
        s.batchBytesLimit =
          (if spec.batchBytesLimit = 0 then DefaultBatchBytesLimit
           else spec.batchBytesLimit))
    ∧ (s.parallelize = true → s.batchBytesLimit = 0) := by
  have hf := newColBatchScan_ok_fields hydrateOk allocUsage flowCtx evalCtx
    spec table index invertedCol pooledArgs pooled s memOut h
  obtain ⟨-, -, hpar, hbbl, -⟩ := hf
  refine ⟨?_, ?_, ?_⟩
  · intro hlim
    rw [hpar, if_pos hlim]
  · intro hp
    rw [hbbl, hp]
    simp
  · intro hp
    rw [hbbl, hp]
    simp

/-- Witness for C1: a spec with a row limit hint and parallelization
requested — parallelization is disabled and the default byte limit applies. -/
theorem newColBatchScan_limits_witness :
    sampleSpecLimited.parallelize = true
    ∧ 0 < sampleSpecLimited.limitHint
    ∧ c1Result.1.parallelize = false
    ∧ c1Result.1.batchBytesLimit = DefaultBatchBytesLimit := by
  have h := newColBatchScan_limits hydAll 0 sampleFlowCtxDist sampleEvalCtx
    sampleSpecLimited sampleTable sampleIndex none CFetcherTableArgs.empty
    ColBatchScan.emptyScan c1Result.1 c1Result.2 rfl
  have hp : c1Result.1.parallelize = false := h.1 (Or.inl (by decide))
  refine ⟨rfl, by decide, hp, ?_⟩
  have hb := h.2.1 hp
  simpa using hb

/-- C5: NewColBatchScan returns an error (and no operator) exactly when the
node identity is present but zero, or the spec's IsCheck flag is set, or
column projection resolution fails, where projection resolution fails exactly
when some projected column type fails hydration. -/
theorem newColBatchScan_errors (hydrateOk : TypeT → Bool) (allocUsage : Nat)
    (flowCtx : FlowCtx) (evalCtx : EvalCtx) (spec : TableReaderSpec)
    (table : TableDescriptor) (index : Index) (invertedCol : Option Column)
    (pooledArgs : CFetcherTableArgs) (pooled : ColBatchScan) :
    (isErr (NewColBatchScan hydrateOk allocUsage flowCtx evalCtx spec table
        index invertedCol pooledArgs pooled) = true
      ↔ (flowCtx.nodeID = some 0 ∨ spec.isCheck = true
          ∨ isErr (populateTableArgs hydrateOk table index invertedCol
              spec.visibility spec.hasSystemColumns pooledArgs) = true))
    ∧ (isErr (populateTableArgs hydrateOk table index invertedCol
          spec.visibility spec.hasSystemColumns pooledArgs) = true
        ↔ ((projectedColumns table invertedCol spec.visibility
              spec.hasSystemColumns).map Column.typ).all hydrateOk = false) := by
  constructor
  · by_cases h1 : nodeIDPresentZero flowCtx.nodeID
    · have hz := (nodeIDPresentZero_iff flowCtx.nodeID).mp h1
      have hN : isErr (NewColBatchScan hydrateOk allocUsage flowCtx evalCtx
          spec table index invertedCol pooledArgs pooled) = true := by
        unfold NewColBatchScan
        simp [h1, isErr]
      simp [hN, hz]
    · have h1' : ¬ flowCtx.nodeID = some 0 := fun hc =>
        h1 ((nodeIDPresentZero_iff flowCtx.nodeID).mpr hc)
      by_cases h2 : spec.isCheck
      · have hN : isErr (NewColBatchScan hydrateOk allocUsage flowCtx evalCtx
            spec table index invertedCol pooledArgs pooled) = true := by
          unfold NewColBatchScan
          simp [h1, h2, isErr]
        simp [hN, h2]
      · cases hp : populateTableArgs hydrateOk table index invertedCol
            spec.visibility spec.hasSystemColumns pooledArgs with
        | error e =>
          have hN : isErr (NewColBatchScan hydrateOk allocUsage flowCtx evalCtx
              spec table index invertedCol pooledArgs pooled) = true := by
            unfold NewColBatchScan
            simp [h1, h2, hp, isErr]
          rw [hN]
          simp [isErr]
        | ok args =>
          have hN : isErr (NewColBatchScan hydrateOk allocUsage flowCtx evalCtx
              spec table index invertedCol pooledArgs pooled) = false := by
            unfold NewColBatchScan
            simp [h1, h2, hp, isErr]
          rw [hN]
          simp [isErr, h1', h2]
  · unfold populateTableArgs
    simp only [GoSlice.view_overwrite, isErr_okIf]
    exact Iff.rfl

/-- Witness for C5: the IsCheck flag forces a construction error. -/
theorem newColBatchScan_errors_witness :
    isErr (NewColBatchScan hydAll 0 sampleFlowCtxDist sampleEvalCtx specIsCheck
      sampleTable sampleIndex none CFetcherTableArgs.empty
      ColBatchScan.emptyScan) = true :=
  (newColBatchScan_errors hydAll 0 sampleFlowCtxDist sampleEvalCtx specIsCheck
    sampleTable sampleIndex none CFetcherTableArgs.empty
    ColBatchScan.emptyScan).1.mpr (Or.inr (Or.inl rfl))

/-- C8: construction resolves the operator's spans by copying the values from
the spec, and iff execution is non-local an immutable duplicate of the spans
is retained, with the copy's memory accounted against the batch memory
allocator. -/
theorem newColBatchScan_spanCopy (hydrateOk : TypeT → Bool) (allocUsage : Nat)
    (flowCtx : FlowCtx) (evalCtx : EvalCtx) (spec : TableReaderSpec)
    (table : TableDescriptor) (index : Index) (invertedCol : Option Column)
    (pooledArgs : CFetcherTableArgs) (pooled : ColBatchScan)
    (s : ColBatchScan) (memOut : Nat)
    (h : NewColBatchScan hydrateOk allocUsage flowCtx evalCtx spec table index
        invertedCol pooledArgs pooled = Except.ok (s, memOut)) :
    s.spansWithCopy.spans.view = spec.spans
    ∧ (flowCtx.Local = false →
        s.spansWithCopy.spansCopy.view = spec.spans
        ∧ memOut = allocUsage + spansMemUsage spec.spans)
    ∧ (flowCtx.Local = true →
        s.spansWithCopy.spansCopy = pooled.spansWithCopy.spansCopy
        ∧ memOut = allocUsage) := by
  have hf := newColBatchScan_ok_fields hydrateOk allocUsage flowCtx evalCtx
    spec table index invertedCol pooledArgs pooled s memOut h
  exact ⟨hf.2.2.2.2.2.1, hf.2.2.2.2.2.2.1, hf.2.2.2.2.2.2.2⟩

/-- Witness for C8: a distributed construction copies the spec's spans,
retains the duplicate and accounts its memory. -/
theorem newColBatchScan_spanCopy_witness :
    c1Result.1.spansWithCopy.spans.view = sampleSpecLimited.spans
    ∧ c1Result.1.spansWithCopy.spansCopy.view = sampleSpecLimited.spans
    ∧ c1Result.2 = 0 + spansMemUsage sampleSpecLimited.spans := by
  have h := newColBatchScan_spanCopy hydAll 0 sampleFlowCtxDist sampleEvalCtx
    sampleSpecLimited sampleTable sampleIndex none CFetcherTableArgs.empty
    ColBatchScan.emptyScan c1Result.1 c1Result.2 rfl
  exact ⟨h.1, (h.2.1 rfl).1, (h.2.1 rfl).2⟩

/-- C10: with a bounded-staleness read requested, the header's minimum bound
is the requested as-of timestamp, raised to the descriptor's modification
time when that is later; without bounded staleness no header is attached. -/
theorem newColBatchScan_bsHeader (hydrateOk : TypeT → Bool) (allocUsage : Nat)
    (flowCtx : FlowCtx) (evalCtx : EvalCtx) (spec : TableReaderSpec)
    (table : TableDescriptor) (index : Index) (invertedCol : Option Column)
    (pooledArgs : CFetcherTableArgs) (pooled : ColBatchScan)
    (s : ColBatchScan) (memOut : Nat)
    (h : NewColBatchScan hydrateOk allocUsage flowCtx evalCtx spec table index
        invertedCol pooledArgs pooled = Except.ok (s, memOut)) :
    (∀ aost, evalCtx.asOfSystemTime = some aost →
        aost.boundedStaleness = true →
        s.bsHeader = some
          { minTimestampBound :=
              if aost.timestamp < table.modificationTime then
                table.modificationTime
              else aost.timestamp,
            minTimestampBoundStrict := aost.nearestOnly,
            maxTimestampBound := aost.maxTimestampBound })
    ∧ (evalCtx.asOfSystemTime = none → s.bsHeader = none)
    ∧ (∀ aost, evalCtx.asOfSystemTime = some aost →
        aost.boundedStaleness = false → s.bsHeader = none) := by
  have hb := (newColBatchScan_ok_fields hydrateOk allocUsage flowCtx evalCtx
    spec table index invertedCol pooledArgs pooled s memOut h).2.2.2.2.1
  refine ⟨?_, ?_, ?_⟩
  · intro aost ha hbs
    rw [hb, ha]
    simp [hbs]
  · intro ha
    rw [hb, ha]
  · intro aost ha hbs
    rw [hb, ha]
    simp [hbs]

/-- Witness for C10: as-of timestamp 40 against a descriptor modified at 50
raises the minimum bound to 50. -/
theorem newColBatchScan_bsHeader_witness :
    c1Result.1.bsHeader
      = some { minTimestampBound := 50, minTimestampBoundStrict := false,
               maxTimestampBound := 100 } := by
  have h := (newColBatchScan_bsHeader hydAll 0 sampleFlowCtxDist sampleEvalCtx
    sampleSpecLimited sampleTable sampleIndex none CFetcherTableArgs.empty
    ColBatchScan.emptyScan c1Result.1 c1Result.2 rfl).1 sampleAost rfl rfl
  rw [h]
  decide

theorem populateTableArgs_closed (hydrateOk : TypeT → Bool)
    (table : TableDescriptor) (index : Index) (invertedCol : Option Column)
    (visibility : ScanVisibility) (hasSystemColumns : Bool)
    (pooledArgs : CFetcherTableArgs) :
    populateTableArgs hydrateOk table index invertedCol visibility
        hasSystemColumns pooledArgs
      = (if ((projectedColumns table invertedCol visibility
              hasSystemColumns).map Column.typ).all hydrateOk then
           Except.ok (populateResult table index invertedCol visibility
             hasSystemColumns pooledArgs)
         else Except.error CrdbError.hydrationFailed) := by
  have h0 : populateTableArgs hydrateOk table index invertedCol visibility
      hasSystemColumns pooledArgs
    = (if (pooledArgs.typs.overwrite ((projectedColumns table invertedCol
            visibility hasSystemColumns).map Column.typ)).view.all hydrateOk then
         Except.ok (populateResult table index invertedCol visibility
           hasSystemColumns pooledArgs)
       else Except.error CrdbError.hydrationFailed) := rfl
  rw [h0, GoSlice.view_overwrite]

/-- C4: DrainMeta emits trailing metadata in the fixed order misplanned
ranges (computed only for non-local execution with a present node identity),
leaf transaction final state, aggregated metrics (snapshot values of bytes
read and rows read, always present), then trace data, omitting every step
that yields no data; local execution never emits misplanned-range
metadata. -/
theorem drainMeta_ordered (env : DrainEnv) (s : ColBatchScan) :
    ColBatchScan.DrainMeta env s = drainMetaSpec env s
    ∧ (s.flowCtx.Local = true →
        ∀ m ∈ ColBatchScan.DrainMeta env s, m.isRanges = false) := by
  constructor
  · unfold ColBatchScan.DrainMeta drainMetaSpec rangesMetaOpt
    rcases hleaf : env.leafTxnFinalState with _ | tfs <;>
      rcases htr : env.traceData with _ | tr <;>
        by_cases hl : s.flowCtx.Local <;>
          simp only [hl, hleaf, htr, Bool.not_true, Bool.not_false, if_true,
            if_false, Bool.false_eq_true, ite_true, ite_false,
            List.reduceOption_cons_of_some, List.reduceOption_cons_of_none,
            List.reduceOption_nil, List.nil_append, Option.map_some,
            Option.map_none] <;>
          first
          | rfl
          | (rcases hn : s.flowCtx.nodeID with _ | nid <;>
              simp only [List.reduceOption_cons_of_some,
                List.reduceOption_cons_of_none, List.reduceOption_nil,
                List.nil_append] <;>
              first
              | rfl
              | (rcases hr : env.misplannedRanges
                    s.spansWithCopy.spansCopy.view nid with _ | r <;>
                  simp [List.reduceOption_cons_of_some,
                    List.reduceOption_cons_of_none, List.reduceOption_nil]))
  · intro hl
    unfold ColBatchScan.DrainMeta
    rcases hleaf : env.leafTxnFinalState with _ | tfs <;>
      rcases htr : env.traceData with _ | tr <;>
        simp [hl, ProducerMetadata.isRanges]

/-- Witness for C4: a concrete local scan yields leaf-state and metrics
items only, in spec order, with no misplanned-range item. -/
theorem drainMeta_ordered_witness :
    ColBatchScan.DrainMeta sampleEnv c4LocalScan
      = drainMetaSpec sampleEnv c4LocalScan
    ∧ ColBatchScan.DrainMeta sampleEnv c4LocalScan
      = [ProducerMetadata.leafTxnFinalState 5, ProducerMetadata.metrics 0 7] := by
  refine ⟨(drainMeta_ordered sampleEnv c4LocalScan).1, ?_⟩
  rfl

/-- C6: populateTableArgs projects all readable columns under
public-and-non-public visibility and only public columns otherwise, replaces
the column matching the inverted column's identity in place (position
preserved, type taken from the inverted column), appends system columns as a
trailing block when requested, and produces a type list aligned elementwise
with the column list. -/
theorem populateTableArgs_projection (hydrateOk : TypeT → Bool)
    (table : TableDescriptor) (index : Index) (invertedCol : Option Column)
    (visibility : ScanVisibility) (hasSystemColumns : Bool)
    (pooledArgs : CFetcherTableArgs) (args : CFetcherTableArgs)
    (h : populateTableArgs hydrateOk table index invertedCol visibility
        hasSystemColumns pooledArgs = Except.ok args) :
    args.cols.view
      = (projectedColumns table invertedCol visibility hasSystemColumns).map some
    ∧ args.typs.view
      = (projectedColumns table invertedCol visibility hasSystemColumns).map
          Column.typ
    ∧ args.typs.view.length = args.cols.view.length
    ∧ projectedColumns table invertedCol visibility hasSystemColumns
      = projectedColumnsSpec table invertedCol visibility hasSystemColumns := by
  rw [populateTableArgs_closed] at h
  rcases hcond : ((projectedColumns table invertedCol visibility
      hasSystemColumns).map Column.typ).all hydrateOk with _ | _
  · rw [hcond] at h
    simp at h
  · rw [hcond] at h
    simp only [if_true, ite_true, Except.ok.injEq] at h
    subst h
    refine ⟨GoSlice.view_overwrite _ _, GoSlice.view_overwrite _ _, ?_, ?_⟩
    · simp only [populateResult, GoSlice.view_overwrite]
      simp
    · unfold projectedColumns projectedColumnsSpec
      simp only [replaceFirstById_eq_invertedSubstitution]

/-- Witness for C6: public visibility with an inverted column substituted at
position 1 and a trailing system column. -/
theorem populateTableArgs_projection_witness :
    populateTableArgs hydAll sampleTable sampleIndex (some colInv)
        ScanVisibility.public true CFetcherTableArgs.empty = Except.ok c6Args
    ∧ c6Args.cols.view
      = (projectedColumns sampleTable (some colInv) ScanVisibility.public
          true).map some
    ∧ c6Args.typs.view
      = (projectedColumns sampleTable (some colInv) ScanVisibility.public
          true).map Column.typ
    ∧ c6Args.cols.view = [some col1, some colInv, some sysCol]
    ∧ c6Args.typs.view = [10, 99, 70] := by
  have h := populateTableArgs_projection hydAll sampleTable sampleIndex
    (some colInv) ScanVisibility.public true CFetcherTableArgs.empty c6Args rfl
  exact ⟨rfl, h.1, h.2.1, by decide, by decide⟩

/-- C7: Release deeply clears query-scoped state keeping capacity:
cFetcherTableArgs.Release nils every visible element of the column list,
truncates the column and type slices to length zero keeping their backing,
and zeroes the descriptor/index references; ColBatchScan.Release deeply
resets the spans and their retained copy and zeroes every other field, so a
reacquired instance exposes no residual span keys or column references. -/
theorem release_deep_clear (a : CFetcherTableArgs) (s : ColBatchScan)
    (hwf : a.cols.len ≤ a.cols.backing.length) :
    ((a.Release).cols.len = 0
      ∧ (a.Release).typs.len = 0
      ∧ (a.Release).cols.backing.take a.cols.len
          = List.replicate a.cols.len (none : Option Column)
      ∧ (a.Release).cols.backing.length = a.cols.backing.length
      ∧ (a.Release).typs.backing = a.typs.backing
      ∧ (a.Release).desc = none
      ∧ (a.Release).index = none
      ∧ (a.Release).colIdxMap = []
      ∧ (a.Release).valNeededForCol = []
      ∧ (a.Release).isSecondaryIndex = false)
    ∧ ((s.Release).spansWithCopy.spans.len = 0
      ∧ (s.Release).spansWithCopy.spansCopy.len = 0
      ∧ (s.Release).spansWithCopy.spans.backing
          = List.replicate s.spansWithCopy.spans.backing.length Span.empty
      ∧ (s.Release).spansWithCopy.spansCopy.backing
          = List.replicate s.spansWithCopy.spansCopy.backing.length Span.empty
      ∧ (s.Release).rf = CFetcher.empty
      ∧ (s.Release).bsHeader = none
      ∧ (s.Release).rowsRead = 0
      ∧ (s.Release).resultTypes = []
      ∧ (s.Release).flowCtx = FlowCtx.empty
      ∧ (s.Release).limitHint = 0
      ∧ (s.Release).batchBytesLimit = 0
      ∧ (s.Release).parallelize = false
      ∧ (s.Release).tracingSpan = false
      ∧ (s.Release).initDone = false) := by
  have hlen : ((a.cols.backing.take a.cols.len).map
      (fun _ => (none : Option Column))).length = a.cols.len := by
    simp [List.length_take, Nat.min_eq_left hwf]
  refine ⟨⟨rfl, rfl, ?_, ?_, rfl, rfl, rfl, rfl, rfl, rfl⟩,
    rfl, rfl, ?_, ?_, rfl, rfl, rfl, rfl, rfl, rfl, rfl, rfl, rfl, rfl⟩
  · show ((a.cols.backing.take a.cols.len).map (fun _ => (none : Option Column))
        ++ a.cols.backing.drop a.cols.len).take a.cols.len
      = List.replicate a.cols.len (none : Option Column)
    rw [List.take_left' hlen, List.map_const', List.length_take,
      Nat.min_eq_left hwf]
  · show ((a.cols.backing.take a.cols.len).map (fun _ => (none : Option Column))
        ++ a.cols.backing.drop a.cols.len).length = a.cols.backing.length
    simp only [List.length_append, List.length_map, List.length_take,
      List.length_drop]
    omega
  · show s.spansWithCopy.spans.backing.map (fun _ => Span.empty)
      = List.replicate s.spansWithCopy.spans.backing.length Span.empty
    exact List.map_const' _ _
  · show s.spansWithCopy.spansCopy.backing.map (fun _ => Span.empty)
      = List.replicate s.spansWithCopy.spansCopy.backing.length Span.empty
    exact List.map_const' _ _

/-- Witness for C7: releasing a populated argument record and a populated
scan leaves only zero-length, element-cleared state. -/
theorem release_deep_clear_witness :
    c7Args.cols.len ≤ c7Args.cols.backing.length
    ∧ (c7Args.Release).cols.len = 0
    ∧ (c7Args.Release).cols.backing.take c7Args.cols.len
        = List.replicate c7Args.cols.len (none : Option Column)
    ∧ (c7Scan.Release).spansWithCopy.spans.backing
        = List.replicate c7Scan.spansWithCopy.spans.backing.length Span.empty := by
  have h := release_deep_clear c7Args c7Scan (by decide)
  exact ⟨by decide, h.1.1, h.1.2.2.1, h.2.2.2.1⟩

end Colfetcher
